import Mathlib

/-
Shallow embedding of the near-decentrablog contract (src/contract/src/lib.rs).

Modelling conventions:
- `usize` / `u64` / `u128` values are modelled as `Nat`.  The spec (section 4.1
  and section 9) declares integer overflow an out-of-scope failure mode, so
  arithmetic is unbounded; the single subtraction that can underflow in the
  source (`end - start` in `get_paging_posts` when `start` exceeds the total)
  is modelled with truncated `Nat` subtraction, which yields the same
  observable result (the empty page) as the wrapping machine subtraction,
  because `drop start` has already exhausted the list there.
- `near_sdk::collections::UnorderedMap` is modelled as an association list in
  enumeration order: `insert` replaces in place or appends, `remove` is the
  swap-remove the library performs, `get` returns a deserialized copy (so a
  mutation of the returned value is not persisted unless `insert` is called).
- Panics (assertion failures, unwrap of a missing value) are modelled as
  `Except.error` with the message of the source; the host reverts an aborted
  call, so an `error` result carries no successor state.
- The host execution environment is a `Ctx` record supplying
  `predecessor_account_id`, `signer_account_id`, `block_timestamp` and
  `account_balance`.
-/

namespace Decentrablog

abbrev AccountId := String

/-- Execution context supplied by the host for one call. -/
structure Ctx where
  predecessor : AccountId
  signer : AccountId
  timestamp : Nat
  balance : Nat
  deriving DecidableEq

/-- Modelled from the spec: `donation.rs` is not among the sources; section 3
describes DonationRecord as id, amount (positive integer), donor identity,
message, created_at and a post_id back-reference.  The constructor argument
order follows the call site `DonationLog::new(next_donation_id, amount,
predecessor, created_at, message, post_id)` in `lib.rs`. -/
structure DonationLog where
  id : Nat
  amount : Nat
  donor : AccountId
  created_at : Nat
  message : String
  post_id : Nat
  deriving DecidableEq

def DonationLog.new (id amount : Nat) (donor : AccountId) (created_at : Nat)
    (message : String) (post_id : Nat) : DonationLog :=
  { id := id, amount := amount, donor := donor, created_at := created_at,
    message := message, post_id := post_id }

/-- Modelled from the spec: `comment.rs` is not among the sources; section 3
describes Comment as id, body, author, created_at.  Constructor argument order
follows the call site `Comment::new(next_comment_id, body, author, created_at)`
in `lib.rs`. -/
structure Comment where
  id : Nat
  body : String
  author : AccountId
  created_at : Nat
  deriving DecidableEq

def Comment.new (id : Nat) (body : String) (author : AccountId)
    (created_at : Nat) : Comment :=
  { id := id, body := body, author := author, created_at := created_at }

def Comment.get_comment_id (c : Comment) : Nat := c.id

def Comment.get_body (c : Comment) : String := c.body

/-- Modelled from the spec: `post.rs` is not among the sources; section 3
describes Post as id, title, body, author, created_at, an ordered
`comment_ids` sequence, `upvoters` and `downvoters` identity sets, and an
ordered `donations` sequence.  `Post::new` (call site in `create_post`) starts
all collections empty. -/
structure Post where
  id : Nat
  title : String
  body : String
  author : AccountId
  created_at : Nat
  comment_ids : List Nat
  upvoters : List AccountId
  downvoters : List AccountId
  donation_logs : List DonationLog
  deriving DecidableEq

def Post.new (id : Nat) (title body : String) (author : AccountId)
    (created_at : Nat) : Post :=
  { id := id, title := title, body := body, author := author,
    created_at := created_at, comment_ids := [], upvoters := [],
    downvoters := [], donation_logs := [] }

def Post.get_post_id (p : Post) : Nat := p.id

def Post.get_title (p : Post) : String := p.title

def Post.get_body (p : Post) : String := p.body

def Post.get_author (p : Post) : AccountId := p.author

/-- Modelled from the spec: the ordered `comment_ids` sequence of the post. -/
def Post.get_comments (p : Post) : List Nat := p.comment_ids

/-- Modelled from the spec: appends the comment id to `comment_ids`. -/
def Post.add_comment (p : Post) (comment_id : Nat) : Post :=
  { p with comment_ids := p.comment_ids ++ [comment_id] }

/-- Modelled from the spec: removes the comment id from `comment_ids` without
reordering the remaining ids (section 4.3). -/
def Post.remove_comment (p : Post) (comment_id : Nat) : Post :=
  { p with comment_ids := p.comment_ids.filter (fun c => c ≠ comment_id) }

/-- Modelled from the spec: appends a record to the append-only donation log
(section 4.5). -/
def Post.add_donation_logs (p : Post) (d : DonationLog) : Post :=
  { p with donation_logs := p.donation_logs ++ [d] }

def Post.get_upvotes (p : Post) : List AccountId := p.upvoters

def Post.get_downvotes (p : Post) : List AccountId := p.downvoters

/-- Modelled from the spec: number of recorded donations of the post. -/
def Post.get_total_donation (p : Post) : Nat := p.donation_logs.length

/-- VoteStatus of `lib.rs`. -/
inductive VoteStatus where
  | Upvoted
  | Downvoted
  | None
  deriving DecidableEq

/-- `UnorderedMap::get`: first entry with the key, as a deserialized copy. -/
def umGet [BEq κ] (m : List (κ × α)) (k : κ) : Option α :=
  match m with
  | [] => Option.none
  | p :: rest => if p.1 == k then some p.2 else umGet rest k

/-- `UnorderedMap::insert`: replace the entry of the key in place, or append a
new entry at the end of the enumeration order. -/
def umInsert [BEq κ] (m : List (κ × α)) (k : κ) (v : α) : List (κ × α) :=
  match m with
  | [] => [(k, v)]
  | p :: rest => if p.1 == k then (k, v) :: rest else p :: umInsert rest k v

/-- Index of the first entry with the key. -/
def umFindIdx [BEq κ] (m : List (κ × α)) (k : κ) : Option Nat :=
  match m with
  | [] => Option.none
  | p :: rest => if p.1 == k then some 0 else (umFindIdx rest k).map (· + 1)

/-- `UnorderedMap::remove`: the library swap-removes the entry, moving the last
entry of the enumeration order into the vacated slot. -/
def umRemove [BEq κ] (m : List (κ × α)) (k : κ) : List (κ × α) :=
  match umFindIdx m k with
  | Option.none => m
  | some i =>
    match m.getLast? with
    | Option.none => m
    | some last => (m.set i last).dropLast

/-- `Option::unwrap`: aborts the call on `None`. -/
def unwrapE (o : Option α) : Except String α :=
  match o with
  | some a => Except.ok a
  | Option.none => Except.error "unwrap on None"

/-- Contract state of `lib.rs` (`struct Blog`). -/
structure Blog where
  owner : AccountId
  user_posts : List (AccountId × List Nat)
  posts : List (Nat × Post)
  comments : List (Nat × Comment)
  next_post_id : Nat
  next_comment_id : Nat
  next_donation_id : Nat
  deriving DecidableEq

/-- `Blog::default`: owner is the signer, all collections empty, counters 0. -/
def Blog.default (ctx : Ctx) : Blog :=
  { owner := ctx.signer, user_posts := [], posts := [], comments := [],
    next_post_id := 0, next_comment_id := 0, next_donation_id := 0 }

/-- `Blog::create_post`: allocates `next_post_id`, inserts the new post,
advances the counter, and appends the id to the author index entry of the
predecessor.  Returns the new state and the assigned id. -/
def Blog.create_post (b : Blog) (ctx : Ctx) (title body : String) :
    Blog × Nat :=
  let post_id := b.next_post_id
  let post := Post.new post_id title body ctx.predecessor ctx.timestamp
  let posts := umInsert b.posts post_id post
  let ups := (umGet b.user_posts ctx.predecessor).getD []
  let user_posts := umInsert b.user_posts ctx.predecessor (ups ++ [post_id])
  ({ b with posts := posts, next_post_id := b.next_post_id + 1,
            user_posts := user_posts }, post_id)

def Blog.get_owner (b : Blog) : AccountId := b.owner

def Blog.get_post (b : Blog) (post_id : Nat) : Option Post :=
  umGet b.posts post_id

/-- `Blog::get_posts`: iterates the keys and unwraps each lookup, which is the
value enumeration. -/
def Blog.get_posts (b : Blog) : List Post := b.posts.map Prod.snd

/-- `Blog::get_user_posts`: empty answer when the author index entry is empty;
otherwise unwraps the post lookup for every listed id. -/
def Blog.get_user_posts (b : Blog) (user_id : AccountId) :
    Except String (List Post) :=
  if ((umGet b.user_posts user_id).getD []).length == 0 then Except.ok []
  else
    match umGet b.user_posts user_id with
    | Option.none => Except.error "unwrap on None"
    | some ids => ids.mapM (fun pid => unwrapE (umGet b.posts pid))

/-- `Blog::get_paging_posts`.  `end - start` is the one truncated subtraction,
see the module comment. -/
def Blog.get_paging_posts (b : Blog) (page page_size : Nat) :
    Except String (List Post) :=
  if page_size > 0 then
    if page > 0 then
      let start := (page - 1) * page_size
      let stop := start + page_size
      let total := b.posts.length
      let stop2 := if stop > total then total else stop
      Except.ok (((b.posts.map Prod.snd).drop start).take (stop2 - start))
    else Except.error "Page must be greater than 0"
  else Except.error "Page size must be greater than 0"

def Blog.get_total_posts (b : Blog) : Nat := b.posts.length

/-- `Blog::delete_post`: owner-only; removes the post from the post store (and
from nothing else). -/
def Blog.delete_post (b : Blog) (ctx : Ctx) (post_id : Nat) :
    Except String Blog :=
  if b.owner = ctx.predecessor then
    Except.ok { b with posts := umRemove b.posts post_id }
  else Except.error "Only owner can delete posts"

/-- `Blog::create_comment`: requires the post to exist and
`body.len() >= 10` — Rust `String::len` counts UTF-8 bytes, so the bound is on
the UTF-8 byte size of the body.  Appends the comment id to the post and
stores the comment, then advances `next_comment_id`. -/
def Blog.create_comment (b : Blog) (ctx : Ctx) (post_id : Nat)
    (body : String) : Except String Blog :=
  match umGet b.posts post_id with
  | Option.none => Except.error "Post does not exist"
  | some _ =>
    if body.utf8ByteSize ≥ 10 then
      let comment := Comment.new b.next_comment_id body ctx.predecessor
        ctx.timestamp
      match umGet b.posts post_id with
      | some post =>
        let post2 := post.add_comment comment.get_comment_id
        Except.ok { b with
          posts := umInsert b.posts post_id post2,
          comments := umInsert b.comments comment.get_comment_id comment,
          next_comment_id := b.next_comment_id + 1 }
      | Option.none => Except.error "Post does not exist"
    else Except.error "Comment must be at least 10 characters long"

/-- `Blog::delete_comment`: owner-only.  The source removes the comment id
from a deserialized copy of the post and never calls `insert` on the post
store, so the state is returned unchanged (an `UnorderedMap::get` copy is not
persisted without an `insert`). -/
def Blog.delete_comment (b : Blog) (ctx : Ctx) (post_id comment_id : Nat) :
    Except String Blog :=
  if b.owner = ctx.predecessor then
    match umGet b.posts post_id with
    | Option.none => Except.error "Post does not exist"
    | some post =>
      match umGet b.comments comment_id with
      | Option.none => Except.error "unwrap on None"
      | some comment =>
        if comment.get_comment_id == comment_id then
          let _post2 := post.remove_comment comment_id
          Except.ok b
        else Except.error "Comment does not exist"
  else Except.error "Only owner can delete comments"

/-- Arguments the donate call schedules for its continuation. -/
structure PendingDonation where
  post_id : Nat
  amount : Nat
  message : String
  deriving DecidableEq

/-- `Blog::donate`, phase 1: validates existence, `amount >= 1` and the
account balance, then asks the host to transfer to the author and schedules
`save_to_donation_log` as the continuation.  Phase 1 performs no state
mutation, so an abort trivially leaves the state unchanged. -/
def Blog.donate (b : Blog) (ctx : Ctx) (post_id amount : Nat)
    (message : String) : Except String PendingDonation :=
  match umGet b.posts post_id with
  | Option.none => Except.error "unwrap on None"
  | some post =>
    if post.get_post_id == post_id then
      if amount ≥ 1 then
        if ctx.balance ≥ amount then
          Except.ok { post_id := post_id, amount := amount, message := message }
        else Except.error "Not enough balance"
      else Except.error "Amount must be greater than 0"
    else Except.error "Post does not exist"

/-- `Blog::save_to_donation_log`, phase 2 (the continuation): builds the
record with the current `next_donation_id`, then increments
`next_comment_id` — the source advances the comment counter here, not the
donation counter — and appends the record to the post. -/
def Blog.save_to_donation_log (b : Blog) (ctx : Ctx) (post_id amount : Nat)
    (message : String) : Except String Blog :=
  let donation_log := DonationLog.new b.next_donation_id amount
    ctx.predecessor ctx.timestamp message post_id
  let b2 := { b with next_comment_id := b.next_comment_id + 1 }
  match umGet b2.posts post_id with
  | Option.none => Except.error "unwrap on None"
  | some post =>
    Except.ok { b2 with
      posts := umInsert b2.posts post_id (post.add_donation_logs donation_log) }

def Blog.get_next_post_id (b : Blog) : Nat := b.next_post_id

/-- `Blog::get_comments`: unwraps the post, then unwraps every comment id of
the post. -/
def Blog.get_comments (b : Blog) (post_id : Nat) :
    Except String (List Comment) :=
  match umGet b.posts post_id with
  | Option.none => Except.error "unwrap on None"
  | some post => post.get_comments.mapM (fun cid => unwrapE (umGet b.comments cid))

/-- The loop of `get_paging_comments`: walks every comment id of the post and
pushes while the running `start` counter is below `stop`, incrementing
`start` on each push — so it collects a prefix of the list, whatever page was
asked for. -/
def commentsPageStep (comments : List (Nat × Comment)) (stop : Nat) :
    Nat → List Nat → Except String (List Comment)
  | _, [] => Except.ok []
  | start, cid :: rest =>
    if start < stop then
      match umGet comments cid with
      | Option.none => Except.error "unwrap on None"
      | some c =>
        (commentsPageStep comments stop (start + 1) rest).map
          (fun cs => c :: cs)
    else commentsPageStep comments stop start rest

/-- `Blog::get_paging_comments`. -/
def Blog.get_paging_comments (b : Blog) (post_id page page_size : Nat) :
    Except String (List Comment) :=
  if page_size > 0 then
    if page > 0 then
      match umGet b.posts post_id with
      | Option.none => Except.error "unwrap on None"
      | some post =>
        let start := (page - 1) * page_size
        let stop := start + page_size
        let stop2 := if stop > post.get_comments.length
          then post.get_comments.length else stop
        commentsPageStep b.comments stop2 start post.get_comments
    else Except.error "Page must be greater than 0"
  else Except.error "Page size must be greater than 0"

def Blog.get_total_comments (b : Blog) : Nat := b.comments.length

def Blog.get_comment (b : Blog) (comment_id : Nat) : Except String Comment :=
  unwrapE (umGet b.comments comment_id)

def Blog.get_post_total_comments (b : Blog) (post_id : Nat) :
    Except String Nat :=
  match umGet b.posts post_id with
  | Option.none => Except.error "Post does not exist"
  | some post => Except.ok post.get_comments.length

/-- `Blog::get_user_vote_status`. -/
def Blog.get_user_vote_status (b : Blog) (post_id : Nat)
    (user_id : AccountId) : Except String VoteStatus :=
  match umGet b.posts post_id with
  | Option.none => Except.error "Post does not exist"
  | some post =>
    let upvotes := post.get_upvotes.contains user_id
    let downvotes := post.get_downvotes.contains user_id
    if upvotes && !downvotes then Except.ok VoteStatus.Upvoted
    else if !upvotes && downvotes then Except.ok VoteStatus.Downvoted
    else Except.ok VoteStatus.None

/-- One external call of the post lifecycle, with its execution context. -/
inductive Op where
  | create (ctx : Ctx) (title body : String)
  | delete (ctx : Ctx) (post_id : Nat)

/-- Result of driving a sequence of calls: final state, the ids returned by
`create_post` in order, and the number of `delete_post` calls that removed an
existing post. -/
structure RunResult where
  blog : Blog
  ids : List Nat
  deleted : Nat

/-- Drives a sequence of calls one at a time; a call that aborts is reverted
by the host and leaves the state unchanged. -/
def Blog.runOps (b : Blog) : List Op → RunResult
  | [] => { blog := b, ids := [], deleted := 0 }
  | Op.create ctx title body :: rest =>
    let s := b.create_post ctx title body
    let r := s.1.runOps rest
    { r with ids := s.2 :: r.ids }
  | Op.delete ctx pid :: rest =>
    match b.delete_post ctx pid with
    | Except.ok b2 =>
      let eff := if (umGet b.posts pid).isSome then 1 else 0
      let r := b2.runOps rest
      { r with deleted := eff + r.deleted }
    | Except.error _ => b.runOps rest

/-- Number of `create_post` calls in a sequence. -/
def countCreates : List Op → Nat
  | [] => 0
  | Op.create _ _ _ :: rest => countCreates rest + 1
  | Op.delete _ _ :: rest => countCreates rest

/-- All keys of a post store lie below a bound (the allocator counter). -/
def keysBelow (m : List (Nat × Post)) (n : Nat) : Prop := ∀ p ∈ m, p.1 < n

/-- Execution context of the unit tests of the source: alice_near signs and
calls, timestamp 0, account balance 10^24. -/
def ctxAlice : Ctx :=
  { predecessor := "alice_near", signer := "alice_near", timestamp := 0,
    balance := 1000000000000000000000000 }

/-- Forty-five `create_post` calls on a fresh engine (test_paging_post). -/
def ops45 : List Op := List.replicate 45 (Op.create ctxAlice "t" "b")

/-- Engine state holding posts with ids 0 through 44. -/
def blog45 : Blog := ((Blog.default ctxAlice).runOps ops45).blog

/-- The call sequence of the delete_a_post_then_add_two_posts test: create,
delete the post, create twice more. -/
def opsC8 : List Op :=
  [Op.create ctxAlice "a" "b", Op.delete ctxAlice 0,
   Op.create ctxAlice "c" "d", Op.create ctxAlice "e" "f"]

/-- Fresh engine after one `create_post` by alice_near: post id 0 exists. -/
def blogOnePost : Blog :=
  ((Blog.default ctxAlice).create_post ctxAlice "This is the title"
    "Lets go Brandon!").1

/-- The post stored under id 0 in `blogOnePost`. -/
def postAlice0 : Post :=
  Post.new 0 "This is the title" "Lets go Brandon!" "alice_near" 0

/-- Applies `create_comment` on post 0 and keeps the old state on abort. -/
def stepCC (b : Blog) (body : String) : Blog :=
  (b.create_comment ctxAlice 0 body).toOption.getD b

/-- `blogOnePost` after four comments (ids 0, 1, 2, 3) on post 0. -/
def blogFourComments : Blog :=
  stepCC (stepCC (stepCC (stepCC blogOnePost "comment number 0")
    "comment number 1") "comment number 2") "comment number 3"

/-- `blogOnePost` after one ten-byte comment (id 0) on post 0. -/
def blogOneComment : Blog := stepCC blogOnePost "0123456789"

/-- A post whose upvoter and downvoter sets both hold the identity u. -/
def postBoth : Post :=
  { id := 0, title := "t", body := "b", author := "a", created_at := 0,
    comment_ids := [], upvoters := ["u"], downvoters := ["u"],
    donation_logs := [] }

/-- An engine state holding `postBoth` under id 0. -/
def blogBoth : Blog :=
  { owner := "o", user_posts := [], posts := [(0, postBoth)], comments := [],
    next_post_id := 1, next_comment_id := 0, next_donation_id := 0 }

end Decentrablog

namespace Decentrablog

theorem umGet_umInsert_self [BEq κ] [LawfulBEq κ] (m : List (κ × α)) (k : κ)
    (v : α) : umGet (umInsert m k v) k = some v := by
  induction m with
  | nil => simp [umInsert, umGet]
  | cons p rest ih =>
    cases hb : (p.1 == k) with
    | true => simp [umInsert, hb, umGet]
    | false => simp [umInsert, hb, umGet, ih]

theorem umGet_eq_none [BEq κ] [LawfulBEq κ] (m : List (κ × α)) (k : κ)
    (h : ∀ p ∈ m, p.1 ≠ k) : umGet m k = Option.none := by
  induction m with
  | nil => rfl
  | cons p rest ih =>
    have hb : (p.1 == k) = false :=
      beq_eq_false_iff_ne.mpr (h p (List.mem_cons_self p rest))
    simp [umGet, hb]
    exact ih (fun q hq => h q (List.mem_cons_of_mem p hq))

theorem length_umInsert_of_none [BEq κ] (m : List (κ × α)) (k : κ) (v : α)
    (h : umGet m k = Option.none) : (umInsert m k v).length = m.length + 1 := by
  induction m with
  | nil => rfl
  | cons p rest ih =>
    cases hb : (p.1 == k) with
    | true => simp [umGet, hb] at h
    | false =>
      simp only [umGet, hb, Bool.false_eq_true, if_false] at h
      simp [umInsert, hb, ih h]

theorem mem_umInsert [BEq κ] (m : List (κ × α)) (k : κ) (v : α) (q : κ × α)
    (h : q ∈ umInsert m k v) : q ∈ m ∨ q = (k, v) := by
  induction m with
  | nil =>
    simp [umInsert] at h
    exact Or.inr h
  | cons p rest ih =>
    cases hb : (p.1 == k) with
    | true =>
      simp only [umInsert, hb, if_true] at h
      rcases List.mem_cons.mp h with h1 | h1
      · exact Or.inr h1
      · exact Or.inl (List.mem_cons_of_mem p h1)
    | false =>
      simp only [umInsert, hb, Bool.false_eq_true, if_false] at h
      rcases List.mem_cons.mp h with h1 | h1
      · exact Or.inl (h1 ▸ List.mem_cons_self p rest)
      · rcases ih h1 with h2 | h2
        · exact Or.inl (List.mem_cons_of_mem p h2)
        · exact Or.inr h2

theorem umFindIdx_eq_none_iff [BEq κ] (m : List (κ × α)) (k : κ) :
    umFindIdx m k = Option.none ↔ umGet m k = Option.none := by
  induction m with
  | nil => simp [umFindIdx, umGet]
  | cons p rest ih => cases hb : (p.1 == k) <;> simp [umFindIdx, umGet, hb, ih]

theorem umRemove_eq_of_none [BEq κ] (m : List (κ × α)) (k : κ)
    (h : umGet m k = Option.none) : umRemove m k = m := by
  unfold umRemove
  rw [(umFindIdx_eq_none_iff m k).mpr h]

theorem length_umRemove_add_one [BEq κ] (m : List (κ × α)) (k : κ)
    (h : (umGet m k).isSome) : (umRemove m k).length + 1 = m.length := by
  unfold umRemove
  cases hf : umFindIdx m k with
  | none =>
    rw [umFindIdx_eq_none_iff] at hf
    rw [hf] at h
    simp at h
  | some i =>
    cases m with
    | nil => simp [umFindIdx] at hf
    | cons p rest =>
      cases hl : (p :: rest).getLast? with
      | none => simp at hl
      | some last => simp

theorem mem_umRemove [BEq κ] (m : List (κ × α)) (k : κ) (q : κ × α)
    (h : q ∈ umRemove m k) : q ∈ m := by
  unfold umRemove at h
  split at h
  · exact h
  · split at h
    · exact h
    · next last hl =>
      have h2 := List.mem_of_mem_dropLast h
      rcases List.mem_or_eq_of_mem_set h2 with h3 | h3
      · exact h3
      · exact h3 ▸ List.mem_of_mem_getLast? hl

theorem string_length_le_utf8ByteSize (s : String) :
    s.length ≤ s.utf8ByteSize := by
  cases s with
  | mk data =>
    induction data with
    | nil => simp [String.utf8ByteSize, String.length, String.utf8ByteSize.go]
    | cons c cs ih =>
      simp [String.utf8ByteSize, String.length, String.utf8ByteSize.go]
        at ih ⊢
      have := Char.utf8Size_pos c
      omega

/-- Driving any call sequence from a state whose post-store keys lie below the
allocator counter: the ids handed out are the consecutive range starting at
the counter, the store size plus the effective deletions equals the old size
plus the creations, and the key bound is preserved. -/
theorem runOps_spec (ops : List Op) : ∀ (b : Blog),
    keysBelow b.posts b.next_post_id →
    (b.runOps ops).ids = List.range' b.next_post_id (countCreates ops) ∧
    (b.runOps ops).blog.posts.length + (b.runOps ops).deleted =
      b.posts.length + countCreates ops ∧
    keysBelow (b.runOps ops).blog.posts (b.runOps ops).blog.next_post_id := by
  induction ops with
  | nil =>
    intro b hk
    exact ⟨rfl, by simp [Blog.runOps, countCreates], hk⟩
  | cons op rest ih =>
    intro b hk
    cases op with
    | create ctx title body =>
      have hfresh : umGet b.posts b.next_post_id = Option.none :=
        umGet_eq_none _ _ (fun p hp => Nat.ne_of_lt (hk p hp))
      have hk2 : keysBelow (b.create_post ctx title body).1.posts
          (b.create_post ctx title body).1.next_post_id := by
        intro p hp
        rcases mem_umInsert _ _ _ _ hp with h1 | h1
        · have := hk p h1
          show p.1 < b.next_post_id + 1
          omega
        · rw [h1]
          show b.next_post_id < b.next_post_id + 1
          omega
      obtain ⟨hids, hlen, hkr⟩ := ih (b.create_post ctx title body).1 hk2
      refine ⟨?_, ?_, ?_⟩
      · simp only [Blog.runOps, countCreates, hids]
        rw [List.range'_succ]
        rfl
      · simp only [Blog.runOps, countCreates]
        have hlen1 : (b.create_post ctx title body).1.posts.length =
            b.posts.length + 1 :=
          length_umInsert_of_none _ _ _ hfresh
        rw [hlen1] at hlen
        omega
      · exact hkr
    | delete ctx pid =>
      by_cases howner : b.owner = ctx.predecessor
      · have hdel : b.delete_post ctx pid =
            Except.ok { b with posts := umRemove b.posts pid } := by
          simp [Blog.delete_post, howner]
        have hk2 : keysBelow (umRemove b.posts pid) b.next_post_id :=
          fun p hp => hk p (mem_umRemove _ _ _ hp)
        obtain ⟨hids, hlen, hkr⟩ :=
          ih { b with posts := umRemove b.posts pid } hk2
        by_cases hpres : (umGet b.posts pid).isSome
        · have hlen2 : (umRemove b.posts pid).length + 1 = b.posts.length :=
            length_umRemove_add_one _ _ hpres
          refine ⟨?_, ?_, ?_⟩
          · simp only [Blog.runOps, hdel, countCreates, hpres, if_true]
            exact hids
          · simp only [Blog.runOps, hdel, countCreates, hpres, if_true]
            simp only at hlen
            omega
          · simp only [Blog.runOps, hdel]
            exact hkr
        · have hrem : umRemove b.posts pid = b.posts :=
            umRemove_eq_of_none _ _ (Option.not_isSome_iff_eq_none.mp hpres)
          refine ⟨?_, ?_, ?_⟩
          · simp only [Blog.runOps, hdel, countCreates, hpres, if_false]
            exact hids
          · simp only [Blog.runOps, hdel, countCreates, hpres,
              Bool.false_eq_true, if_false]
            simp only [hrem] at hlen ⊢
            omega
          · simp only [Blog.runOps, hdel]
            exact hkr
      · have hdel : b.delete_post ctx pid =
            Except.error "Only owner can delete posts" := by
          simp [Blog.delete_post, howner]
        obtain ⟨hids, hlen, hkr⟩ := ih b hk
        refine ⟨?_, ?_, ?_⟩
        · simp only [Blog.runOps, hdel, countCreates]
          exact hids
        · simp only [Blog.runOps, hdel, countCreates]
          omega
        · simp only [Blog.runOps, hdel]
          exact hkr

end Decentrablog

namespace Decentrablog

/-- Claim C1: the claim states that every donation recorded by the donate
continuation receives a fresh id and that the donation id counter advances by
one per recorded donation.  The code disagrees: `save_to_donation_log` builds
the record from `next_donation_id` but then increments `next_comment_id`, so
after two recorded donations on a fresh engine both records carry id 0, the
donation counter still reads 0, and the comment counter was advanced twice.
This theorem evaluates the code at that failing input. -/
theorem C1_donation_ids_not_fresh :
    ∃ b1 b2, blogOnePost.save_to_donation_log ctxAlice 0 1 "m1" =
        Except.ok b1 ∧
      b1.save_to_donation_log ctxAlice 0 1 "m2" = Except.ok b2 ∧
      (umGet b2.posts 0).map (fun p => p.donation_logs.map DonationLog.id) =
        some [0, 0] ∧
      b2.next_donation_id = 0 ∧
      b2.next_comment_id = 2 :=
  ⟨_, _, rfl, rfl, rfl, rfl, rfl⟩

/-- Claim C2: for page > 0 and page_size > 0 with start = (page-1)*page_size
below the total post count, `get_paging_posts` returns exactly the slice from
start to min(start+page_size, total) of the current enumeration order of the
post store; in particular on an engine with 45 posts (ids 0 through 44),
page 5 of size 10 holds the five posts with ids 40 through 44 in order. -/
theorem C2_get_paging_posts_slice :
    (∀ (b : Blog) (page page_size : Nat), 0 < page → 0 < page_size →
      (page - 1) * page_size < b.posts.length →
      b.get_paging_posts page page_size =
        Except.ok (((b.posts.map Prod.snd).drop ((page - 1) * page_size)).take
          (min ((page - 1) * page_size + page_size) b.posts.length -
            (page - 1) * page_size))) ∧
    (blog45.get_paging_posts 5 10).toOption.map
        (fun l => l.map Post.get_post_id) = some [40, 41, 42, 43, 44] := by
  constructor
  · intro b page page_size h1 h2 _h3
    simp only [Blog.get_paging_posts]
    rw [if_pos h2, if_pos h1]
    have hmin : (if (page - 1) * page_size + page_size > b.posts.length
        then b.posts.length else (page - 1) * page_size + page_size) =
        min ((page - 1) * page_size + page_size) b.posts.length := by
      split <;> omega
    rw [hmin]
  · rfl

/-- Witness for C2 at the 45-post engine, page 5, page size 10. -/
theorem C2_get_paging_posts_slice_witness :
    0 < 5 ∧ 0 < 10 ∧ (5 - 1) * 10 < blog45.posts.length ∧
    blog45.get_paging_posts 5 10 =
      Except.ok (((blog45.posts.map Prod.snd).drop ((5 - 1) * 10)).take
        (min ((5 - 1) * 10 + 10) blog45.posts.length - (5 - 1) * 10)) :=
  ⟨by decide, by decide, by decide,
    C2_get_paging_posts_slice.1 blog45 5 10 (by decide) (by decide)
      (by decide)⟩

/-- Claim C3: for page > 0 and page_size > 0 with (page-1)*page_size at least
the total post count, `get_paging_posts` returns the empty sequence rather
than aborting. -/
theorem C3_get_paging_posts_past_end (b : Blog) (page page_size : Nat)
    (h1 : 0 < page) (h2 : 0 < page_size)
    (h3 : b.posts.length ≤ (page - 1) * page_size) :
    b.get_paging_posts page page_size = Except.ok [] := by
  simp only [Blog.get_paging_posts]
  rw [if_pos h2, if_pos h1]
  have hdrop : ((b.posts.map Prod.snd).drop ((page - 1) * page_size)) = [] :=
    List.drop_eq_nil_of_le (by simpa using h3)
  rw [hdrop, List.take_nil]

/-- Witness for C3: the empty engine, page 1 of size 1 is empty. -/
theorem C3_get_paging_posts_past_end_witness :
    0 < 1 ∧ (Blog.default ctxAlice).posts.length ≤ (1 - 1) * 1 ∧
    (Blog.default ctxAlice).get_paging_posts 1 1 = Except.ok [] :=
  ⟨by decide, by decide,
    C3_get_paging_posts_past_end (Blog.default ctxAlice) 1 1 (by decide)
      (by decide) (by decide)⟩

/-- Claim C4: the claim states that `get_paging_comments(post_id, page,
page_size)` returns the slice starting at (page-1)*page_size of the post's
comment_ids order, so for page > 1 it returns the comments of that page.  The
code disagrees: its loop walks all comment ids and pushes while a running
counter initialised to (page-1)*page_size stays below the page end, so it
always returns a prefix of the comment list.  On a post with four comments
(ids 0, 1, 2, 3), page 2 of size 2 yields the comments with ids 0 and 1
instead of the claimed ids 2 and 3.  This theorem evaluates the code at that
failing input. -/
theorem C4_get_paging_comments_returns_prefix :
    blogFourComments.get_post_total_comments 0 = Except.ok 4 ∧
    (blogFourComments.get_paging_comments 0 2 2).toOption.map
      (fun l => l.map Comment.get_comment_id) = some [0, 1] :=
  ⟨rfl, rfl⟩

/-- Claim C5: the claim states that an owner `delete_comment(post_id,
comment_id)` removes the comment id from the post's comment_ids while the
Comment entity stays retrievable by `get_comment`.  The code disagrees on the
removal: it edits only the deserialized copy of the post and never inserts it
back into the store, so the call succeeds and the state is completely
unchanged — the comment id is still listed by the post.  This theorem
evaluates the code at that failing input: after the owner deletes comment 0
of post 0, the call returned ok, the state is the same, the post still counts
one comment and still lists id 0, and the entity is still retrievable. -/
theorem C5_delete_comment_is_noop :
    blogOneComment.delete_comment ctxAlice 0 0 = Except.ok blogOneComment ∧
    blogOneComment.get_post_total_comments 0 = Except.ok 1 ∧
    (blogOneComment.get_comments 0).toOption.map
      (fun l => l.map Comment.get_comment_id) = some [0] ∧
    (blogOneComment.get_comment 0).toOption.map Comment.get_comment_id =
      some 0 :=
  ⟨rfl, rfl, rfl, rfl⟩

/-- Counterexample to claim C6 as stated: the length check of
`create_comment` is `body.len() >= 10`, which counts UTF-8 bytes, not
characters.  The body made of five copies of the two-byte character ß has 5
characters yet 10 bytes, and is accepted, refuting the statement that every
body shorter than 10 characters is rejected. -/
theorem C6_short_body_accepted_counterexample :
    ("ßßßßß" : String).length = 5 ∧
    ("ßßßßß" : String).utf8ByteSize = 10 ∧
    (blogOnePost.create_comment ctxAlice 0 "ßßßßß").toOption.isSome = true :=
  ⟨rfl, rfl, rfl⟩

/-- Claim C6 (amended): for every existing post, `create_comment` aborts with
the validation error exactly when the UTF-8 byte length of the body is below
10, and succeeds — storing the comment under the fresh comment id and
appending that id to the post's comment_ids — for every body of at least 10
UTF-8 bytes; in particular every body of exactly 10 characters is accepted,
since each character occupies at least one byte. -/
theorem C6_create_comment_length_amended (b : Blog) (ctx : Ctx)
    (post_id : Nat) (body : String) (post : Post)
    (hp : umGet b.posts post_id = some post) :
    (body.utf8ByteSize < 10 →
      b.create_comment ctx post_id body =
        Except.error "Comment must be at least 10 characters long") ∧
    (10 ≤ body.utf8ByteSize →
      ∃ b2, b.create_comment ctx post_id body = Except.ok b2 ∧
        umGet b2.comments b.next_comment_id =
          some (Comment.new b.next_comment_id body ctx.predecessor
            ctx.timestamp) ∧
        (umGet b2.posts post_id).map Post.get_comments =
          some (post.get_comments ++ [b.next_comment_id])) ∧
    (body.length = 10 →
      ∃ b2, b.create_comment ctx post_id body = Except.ok b2) := by
  have hok : 10 ≤ body.utf8ByteSize →
      ∃ b2, b.create_comment ctx post_id body = Except.ok b2 ∧
        umGet b2.comments b.next_comment_id =
          some (Comment.new b.next_comment_id body ctx.predecessor
            ctx.timestamp) ∧
        (umGet b2.posts post_id).map Post.get_comments =
          some (post.get_comments ++ [b.next_comment_id]) := by
    intro hsize
    unfold Blog.create_comment
    rw [hp, if_pos hsize]
    refine ⟨_, rfl, ?_, ?_⟩
    · exact umGet_umInsert_self _ _ _
    · rw [umGet_umInsert_self]
      simp [Post.add_comment, Post.get_comments, Comment.get_comment_id,
        Comment.new]
  refine ⟨?_, hok, ?_⟩
  · intro hsize
    unfold Blog.create_comment
    rw [hp, if_neg (by omega)]
  · intro hchars
    have hsize : 10 ≤ body.utf8ByteSize := by
      have := string_length_le_utf8ByteSize body
      omega
    obtain ⟨b2, h1, -, -⟩ := hok hsize
    exact ⟨b2, h1⟩

/-- Witness for C6 (amended): on the one-post engine, the ten-byte body is
accepted, stored under comment id 0, and appended to post 0. -/
theorem C6_create_comment_length_amended_witness :
    umGet blogOnePost.posts 0 = some postAlice0 ∧
    10 ≤ ("0123456789" : String).utf8ByteSize ∧
    (∃ b2, blogOnePost.create_comment ctxAlice 0 "0123456789" =
        Except.ok b2 ∧
      umGet b2.comments blogOnePost.next_comment_id =
        some (Comment.new blogOnePost.next_comment_id "0123456789"
          ctxAlice.predecessor ctxAlice.timestamp) ∧
      (umGet b2.posts 0).map Post.get_comments =
        some (postAlice0.get_comments ++ [blogOnePost.next_comment_id])) :=
  ⟨rfl, by decide,
    (C6_create_comment_length_amended blogOnePost ctxAlice 0 "0123456789"
      postAlice0 rfl).2.1 (by decide)⟩

/-- Claim C7: for every existing post and identity, `get_user_vote_status`
answers Upvoted exactly when the identity is among the upvoters and not the
downvoters, Downvoted exactly in the mirrored case, and None otherwise —
including when the identity is in both sets. -/
theorem C7_get_user_vote_status (b : Blog) (post_id : Nat) (user : AccountId)
    (post : Post) (hp : umGet b.posts post_id = some post) :
    (b.get_user_vote_status post_id user = Except.ok VoteStatus.Upvoted ↔
      user ∈ post.upvoters ∧ user ∉ post.downvoters) ∧
    (b.get_user_vote_status post_id user = Except.ok VoteStatus.Downvoted ↔
      user ∈ post.downvoters ∧ user ∉ post.upvoters) ∧
    (b.get_user_vote_status post_id user = Except.ok VoteStatus.None ↔
      (user ∈ post.upvoters ↔ user ∈ post.downvoters)) := by
  unfold Blog.get_user_vote_status
  rw [hp]
  by_cases hu : user ∈ post.upvoters <;> by_cases hd : user ∈ post.downvoters
    <;> simp [Post.get_upvotes, Post.get_downvotes, List.elem_iff,
      List.contains, hu, hd]

/-- Witness for C7 at a post listing the identity u as both an upvoter and a
downvoter: the status is None. -/
theorem C7_get_user_vote_status_witness :
    umGet blogBoth.posts 0 = some postBoth ∧
    blogBoth.get_user_vote_status 0 "u" = Except.ok VoteStatus.None ∧
    ("u" ∈ postBoth.upvoters ∧ "u" ∈ postBoth.downvoters) :=
  ⟨rfl,
    (C7_get_user_vote_status blogBoth 0 "u" postBoth rfl).2.2.mpr
      (by decide),
    by decide⟩

/-- Claim C8: from a fresh engine, over any sequence of create_post and
delete_post calls, the ids handed out by create_post are strictly increasing
and never repeat — deletion does not reset the allocator — and
get_total_posts always equals the number of created posts minus the number of
posts actually deleted; in particular after one create, one owner delete and
two more creates the total is 2 and the next id to assign is 3. -/
theorem C8_post_ids_strictly_increasing_and_total :
    (∀ (ctx0 : Ctx) (ops : List Op),
      (((Blog.default ctx0).runOps ops).ids).Pairwise (· < ·) ∧
      (((Blog.default ctx0).runOps ops).ids).Nodup ∧
      ((Blog.default ctx0).runOps ops).blog.get_total_posts =
        countCreates ops - ((Blog.default ctx0).runOps ops).deleted) ∧
    (((Blog.default ctxAlice).runOps opsC8).blog.get_total_posts = 2 ∧
     ((Blog.default ctxAlice).runOps opsC8).blog.get_next_post_id = 3) := by
  constructor
  · intro ctx0 ops
    have hk : keysBelow (Blog.default ctx0).posts
        (Blog.default ctx0).next_post_id := by
      intro p hp
      simp [Blog.default] at hp
    obtain ⟨hids, hlen, -⟩ := runOps_spec ops (Blog.default ctx0) hk
    refine ⟨?_, ?_, ?_⟩
    · rw [hids]
      exact List.pairwise_lt_range' _ _
    · rw [hids]
      exact List.nodup_range' _ _
    · show ((Blog.default ctx0).runOps ops).blog.posts.length = _
      have h0 : (Blog.default ctx0).posts.length = 0 := rfl
      rw [h0] at hlen
      omega
  · exact ⟨rfl, rfl⟩

/-- Claim C9: for an existing post, `donate` aborts (with no state change —
phase 1 performs no mutation at all) when the amount is below 1 or exceeds
the account balance of the execution context; otherwise it succeeds,
scheduling the continuation with the same post id, amount and message, and
the continuation `save_to_donation_log`, run in its own context, appends to
the post a donation record carrying that amount and message together with the
donor identity and timestamp the continuation context supplies. -/
theorem C9_donate_two_phase (b : Blog) (ctx ctx2 : Ctx)
    (post_id amount : Nat) (message : String) (post : Post)
    (hp : umGet b.posts post_id = some post)
    (hid : post.get_post_id = post_id) :
    (amount < 1 →
      b.donate ctx post_id amount message =
        Except.error "Amount must be greater than 0") ∧
    (1 ≤ amount → ctx.balance < amount →
      b.donate ctx post_id amount message =
        Except.error "Not enough balance") ∧
    (1 ≤ amount → amount ≤ ctx.balance →
      b.donate ctx post_id amount message =
        Except.ok { post_id := post_id, amount := amount, message := message } ∧
      ∃ b2, b.save_to_donation_log ctx2 post_id amount message =
          Except.ok b2 ∧
        (umGet b2.posts post_id).map Post.donation_logs =
          some (post.donation_logs ++
            [DonationLog.new b.next_donation_id amount ctx2.predecessor
              ctx2.timestamp message post_id])) := by
  have hbid : (post.get_post_id == post_id) = true := by
    simp [hid]
  refine ⟨?_, ?_, ?_⟩
  · intro hlt
    unfold Blog.donate
    rw [hp]
    simp only [hbid, if_true]
    rw [if_neg (by omega)]
  · intro hge hbal
    unfold Blog.donate
    rw [hp]
    simp only [hbid, if_true]
    rw [if_pos hge, if_neg (by omega)]
  · intro hge hbal
    constructor
    · unfold Blog.donate
      rw [hp]
      simp only [hbid, if_true]
      rw [if_pos hge, if_pos hbal]
    · simp only [Blog.save_to_donation_log]
      rw [hp]
      refine ⟨_, rfl, ?_⟩
      simp [umGet_umInsert_self, Post.add_donation_logs]

/-- Witness for C9: on the one-post engine, alice donates 5 to post 0; the
call succeeds and the continuation appends the record. -/
theorem C9_donate_two_phase_witness :
    umGet blogOnePost.posts 0 = some postAlice0 ∧
    postAlice0.get_post_id = 0 ∧
    (1 ≤ 5 ∧ 5 ≤ ctxAlice.balance) ∧
    (blogOnePost.donate ctxAlice 0 5 "thanks" =
      Except.ok { post_id := 0, amount := 5, message := "thanks" } ∧
    ∃ b2, blogOnePost.save_to_donation_log ctxAlice 0 5 "thanks" =
        Except.ok b2 ∧
      (umGet b2.posts 0).map Post.donation_logs =
        some (postAlice0.donation_logs ++
          [DonationLog.new blogOnePost.next_donation_id 5
            ctxAlice.predecessor ctxAlice.timestamp "thanks" 0])) :=
  ⟨rfl, rfl, ⟨by decide, by decide⟩,
    (C9_donate_two_phase blogOnePost ctxAlice ctxAlice 0 5 "thanks"
      postAlice0 rfl rfl).2.2 (by decide) (by decide)⟩

/-- Claim C10: there is a reachable state — alice creates a post, the owner
deletes it — where `get_user_posts` for alice aborts on the unwrap of the
deleted post id left behind in the author index, instead of returning the
remaining posts. -/
theorem C10_get_user_posts_aborts_after_delete :
    ∃ b2, ((Blog.default ctxAlice).create_post ctxAlice "t" "b").1.delete_post
        ctxAlice 0 = Except.ok b2 ∧
      b2.get_user_posts "alice_near" = Except.error "unwrap on None" :=
  ⟨_, rfl, rfl⟩

end Decentrablog
